import Mathlib

/-!
Shallow embedding of the assignment-lifecycle and inventory engine of the
community tool-lending tracker (modulo_implementos.py, modulo_asignaciones.py,
interfaz_asignaciones.py, nucleo_sistema.py), together with theorems checking
the specification's claims against it.
-/

namespace Sistema_Comunitario

/-! ## Dates (nucleo_sistema.Utilidades)

Python `datetime.strptime(s, "%Y-%m-%d").date()`: the year is exactly four
digits (value at least 1), month and day are one or two digits, the month is
1..12 and the day 1..days-in-month (proleptic Gregorian, with leap years), the
separators are literal hyphens, and the whole string must be consumed.
Comparison of `date` objects is lexicographic on (year, month, day). -/

structure Fecha where
  anio : Nat
  mes : Nat
  dia : Nat
deriving DecidableEq, Repr

def esBisiesto (y : Nat) : Bool :=
  (y % 4 == 0 && y % 100 != 0) || y % 400 == 0

def diasDelMes (y m : Nat) : Nat :=
  if m = 2 then (if esBisiesto y then 29 else 28)
  else if m = 4 ∨ m = 6 ∨ m = 9 ∨ m = 11 then 30
  else 31

/-- Splits a character list at every occurrence of the separator, modelling
Python `str.split(sep)` (so the empty list yields one empty field). -/
def dividirEn (sep : Char) : List Char → List (List Char)
  | [] => [[]]
  | c :: rest =>
    match dividirEn sep rest with
    | [] => if c = sep then [[], []] else [[c]]
    | h :: t => if c = sep then [] :: h :: t else (c :: h) :: t

def esNumerica (l : List Char) : Bool :=
  !l.isEmpty && l.all Char.isDigit

def valorNumero (l : List Char) : Nat :=
  l.foldl (fun n c => 10 * n + (c.toNat - 48)) 0

def parsearFechaLista (l : List Char) : Option Fecha :=
  match dividirEn '-' l with
  | [ys, ms, ds] =>
    if esNumerica ys && esNumerica ms && esNumerica ds
        && ys.length == 4 && ms.length ≤ 2 && ds.length ≤ 2 then
      let y := valorNumero ys
      let m := valorNumero ms
      let d := valorNumero ds
      if 1 ≤ y ∧ 1 ≤ m ∧ m ≤ 12 ∧ 1 ≤ d ∧ d ≤ diasDelMes y m then
        some ⟨y, m, d⟩
      else none
    else none
  | _ => none

def parsearFecha (s : String) : Option Fecha :=
  parsearFechaLista s.toList

/-- Utilidades.validar_fecha: true iff strptime succeeds. -/
def validar_fecha (texto_fecha : String) : Bool :=
  (parsearFecha texto_fecha).isSome

/-- Lexicographic strict order on parsed dates, as Python `date` comparison. -/
def fechaLt (a b : Fecha) : Bool :=
  if a.anio < b.anio then true
  else if b.anio < a.anio then false
  else if a.mes < b.mes then true
  else if b.mes < a.mes then false
  else if a.dia < b.dia then true
  else false

def compararValoresFecha (f1 f2 : Fecha) : Int :=
  if fechaLt f1 f2 then -1
  else if fechaLt f2 f1 then 1
  else 0

/-- Utilidades.comparar_fechas: parses both strings with strptime and compares.
A parse failure raises ValueError in the source; modelled as `none`. -/
def comparar_fechas (fecha1 fecha2 : String) : Option Int :=
  match parsearFecha fecha1, parsearFecha fecha2 with
  | some f1, some f2 => some (compararValoresFecha f1 f2)
  | _, _ => none

/-! ## Integer parsing (Python `int(str)`)

Python `int` also tolerates surrounding whitespace and underscores between
digits; those inputs play no role in the claims and are modelled as failures
here only insofar as they never appear in the inputs used below. -/

def parsearEntero (l : List Char) : Option Int :=
  match l with
  | '-' :: ds => if esNumerica ds then some (-(valorNumero ds : Int)) else none
  | '+' :: ds => if esNumerica ds then some (valorNumero ds : Int) else none
  | ds => if esNumerica ds then some (valorNumero ds : Int) else none

/-! ## Implemento (modulo_implementos.Implemento) -/

structure Implemento where
  identificador : String
  titulo : String
  tipo : String
  stock : Int
  condicion : String
  precio_estimado : Float

/-- Implemento.ajustar_stock: nuevo_stock = stock + cantidad; if negative,
return False with no mutation, else commit and return True. The pair carries
the returned Bool and the (possibly updated) implement. -/
def Implemento.ajustar_stock (impl : Implemento) (cantidad : Int) : Bool × Implemento :=
  let nuevo_stock := impl.stock + cantidad
  if nuevo_stock < 0 then (false, impl)
  else (true, { impl with stock := nuevo_stock })

/-- Implemento.hay_disponibilidad: stock >= cantidad_solicitada and
condicion == 'disponible'. -/
def Implemento.hay_disponibilidad (impl : Implemento) (cantidad_solicitada : Int) : Bool :=
  decide (cantidad_solicitada ≤ impl.stock) && (impl.condicion == "disponible")

/-! ## AdministradorImplementos (collection operations used by the claims)

The Python manager owns a Python list and mutates the object returned by
`buscar_por_id`, which is the first element with the given id; mutation is
therefore modelled as replace-first-match. -/

def buscar_por_id : List Implemento → String → Option Implemento
  | [], _ => none
  | i :: r, id => if i.identificador = id then some i else buscar_por_id r id

def actualizarImplemento : List Implemento → String → (Implemento → Implemento) → List Implemento
  | [], _, _ => []
  | i :: r, id, f =>
    if i.identificador = id then f i :: r
    else i :: actualizarImplemento r id f

/-- Field updates requested by AdministradorImplementos.modificar_existente:
each key present in the dict overwrites the corresponding field directly. -/
structure DatosModificacion where
  titulo : Option String
  tipo : Option String
  stock : Option Int
  condicion : Option String
  precio_estimado : Option Float

def aplicarDatos (impl : Implemento) (d : DatosModificacion) : Implemento :=
  let i1 := match d.titulo with | some t => { impl with titulo := t } | none => impl
  let i2 := match d.tipo with | some t => { i1 with tipo := t } | none => i1
  let i3 := match d.stock with | some s => { i2 with stock := s } | none => i2
  let i4 := match d.condicion with | some c => { i3 with condicion := c } | none => i3
  match d.precio_estimado with | some p => { i4 with precio_estimado := p } | none => i4

/-- AdministradorImplementos.modificar_existente: looks the implement up by id
and, when found, overwrites the requested fields in place (the stock field is
assigned directly, not through ajustar_stock). -/
def modificar_existente (l : List Implemento) (identificador : String)
    (nuevos_datos : DatosModificacion) : Bool × List Implemento :=
  match buscar_por_id l identificador with
  | none => (false, l)
  | some _ => (true, actualizarImplemento l identificador (fun i => aplicarDatos i nuevos_datos))

/-- InterfazImplementos estado menu mapping used by proceso_modificacion
(estados_map.get with no default). -/
def estadosMapModificacion (opcion : String) : Option String :=
  if opcion = "1" then some "disponible"
  else if opcion = "2" then some "prestado"
  else if opcion = "3" then some "dañado"
  else if opcion = "4" then some "mantenimiento"
  else none

/-- InterfazImplementos.proceso_modificacion: builds the update dict from the
operator's answers (empty string means keep; the stock and value answers are
already parsed, `none` standing for empty or unparseable input, in which case
the field is kept) and calls modificar_existente. No range check is applied to
the new stock. -/
def proceso_modificacion (l : List Implemento) (id_modificar nuevo_nombre nueva_categoria : String)
    (nuevo_stock : Option Int) (opcion_estado : String) (nuevo_valor : Option Float) :
    Bool × List Implemento :=
  match buscar_por_id l id_modificar with
  | none => (false, l)
  | some _ =>
    let datos : DatosModificacion :=
      ⟨ if nuevo_nombre = "" then none else some nuevo_nombre,
        if nueva_categoria = "" then none else some nueva_categoria,
        nuevo_stock,
        estadosMapModificacion opcion_estado,
        nuevo_valor ⟩
    modificar_existente l id_modificar datos

/-! ## Miembro (modulo_miembros) -/

structure Miembro where
  identificador : String
  nombres : String
  apellidos : String
  telefono : String
  ubicacion : String
  rol : String
deriving DecidableEq, Repr

/-- ControladorMiembros.localizar: first member with the given id. -/
def localizar : List Miembro → String → Option Miembro
  | [], _ => none
  | m :: r, id => if m.identificador = id then some m else localizar r id

/-! ## Asignacion (modulo_asignaciones) -/

structure Asignacion where
  identificador : String
  codigo_miembro : String
  codigo_implemento : String
  unidades : Int
  fecha_salida : String
  fecha_retorno : String
  estado : String
deriving DecidableEq, Repr

/-- Asignacion.esta_vencido against an explicit reference date `hoy` (the
source obtains it from the clock): False outright when estado is not
"activo"; otherwise comparar_fechas(hoy, fecha_retorno) > 0, whose
ValueError on an unparseable date is modelled as `none`. -/
def Asignacion.esta_vencido (a : Asignacion) (hoy : String) : Option Bool :=
  if a.estado ≠ "activo" then some false
  else
    match comparar_fechas hoy a.fecha_retorno with
    | none => none
    | some c => some (0 < c)

/-- GestorAsignaciones.buscar: first assignment with the given id. -/
def buscar : List Asignacion → String → Option Asignacion
  | [], _ => none
  | a :: r, id => if a.identificador = id then some a else buscar r id

def actualizarAsignacion : List Asignacion → String → (Asignacion → Asignacion) → List Asignacion
  | [], _, _ => []
  | a :: r, id, f =>
    if a.identificador = id then f a :: r
    else a :: actualizarAsignacion r id f

/-- The ids_usados set of GestorAsignaciones always holds exactly the ids of
the stored list (both are extended together on load and on crear), so the
membership test is modelled over the list. -/
def existeIdAsignacion (l : List Asignacion) (id : String) : Bool :=
  l.any (fun a => a.identificador == id)

/-- GestorAsignaciones.crear: reject a duplicate id, else append. -/
def crear (lista : List Asignacion) (a : Asignacion) : Bool × List Asignacion :=
  if existeIdAsignacion lista a.identificador then (false, lista)
  else (true, lista ++ [a])

/-- GestorAsignaciones._cargar, one stripped line: split on commas, require
exactly seven fields, parse the units as int (a failure skips the line); the
date fields are stored as-is, with no validation. -/
def cargar_linea (linea : String) : Option Asignacion :=
  match dividirEn ',' linea.toList with
  | [p0, p1, p2, p3, p4, p5, p6] =>
    match parsearEntero p3 with
    | some n =>
      some ⟨String.mk p0, String.mk p1, String.mk p2, n, String.mk p4, String.mk p5, String.mk p6⟩
    | none => none
  | _ => none

/-- GestorAsignaciones.obtener_vencidas over an explicit reference date: the
list comprehension evaluates esta_vencido on every element, so a ValueError
anywhere aborts the whole listing (modelled as `none`). -/
def obtener_vencidas (l : List Asignacion) (hoy : String) : Option (List Asignacion) :=
  match l with
  | [] => some []
  | a :: r =>
    match a.esta_vencido hoy, obtener_vencidas r hoy with
    | some b, some rest => some (if b then a :: rest else rest)
    | _, _ => none

/-! ## System state and the interactive operations (interfaz_asignaciones)

The interactive procedures read their inputs from the console; they are
modelled as functions of those inputs returning an outcome (one constructor
per distinct printed refusal) and the new state. The three collections live
in one record; the procedures mutate the implement and assignment found by
the id lookups, which is replace-first-match on the lists. -/

structure Sistema where
  implementos : List Implemento
  miembros : List Miembro
  asignaciones : List Asignacion

inductive ResCreacion where
  | exito
  | idDuplicado
  | miembroNoEncontrado
  | implementoNoEncontrado
  | cantidadInvalida
  | stockInsuficiente
  | fechaInvalida
  | errorCrear
deriving DecidableEq, Repr

inductive ResOperacion where
  | exito
  | noEncontradaOInactiva
  | errorImplemento
deriving DecidableEq, Repr

inductive ResExtension where
  | exito
  | noEncontradaOInactiva
  | fechaInvalida
  | fechaNoPosterior
  | excepcionFecha
deriving DecidableEq, Repr

/-- PantallasAsignaciones.proceso_creacion, with the console answers as
arguments (the units already parsed: a non-numeric answer aborts before any
of the checks modelled here). Checks run in source order: duplicate id,
member lookup, implement lookup, non-positive units, availability, date
format; on success the record is appended with estado "activo" and the stock
of the found implement is adjusted by -unidades. -/
def proceso_creacion (st : Sistema) (id_asig codigo_miembro codigo_impl : String)
    (unidades : Int) (fecha_salida fecha_retorno : String) : ResCreacion × Sistema :=
  if existeIdAsignacion st.asignaciones id_asig then (.idDuplicado, st)
  else
    match localizar st.miembros codigo_miembro with
    | none => (.miembroNoEncontrado, st)
    | some _ =>
      match buscar_por_id st.implementos codigo_impl with
      | none => (.implementoNoEncontrado, st)
      | some impl =>
        if unidades ≤ 0 then (.cantidadInvalida, st)
        else if ¬ impl.hay_disponibilidad unidades then (.stockInsuficiente, st)
        else if ¬ (validar_fecha fecha_salida && validar_fecha fecha_retorno) then (.fechaInvalida, st)
        else
          let nueva : Asignacion :=
            ⟨id_asig, codigo_miembro, codigo_impl, unidades, fecha_salida, fecha_retorno, "activo"⟩
          match crear st.asignaciones nueva with
          | (true, lista) =>
            (.exito,
              { st with
                asignaciones := lista,
                implementos := actualizarImplemento st.implementos codigo_impl
                  (fun i => (i.ajustar_stock (-unidades)).2) })
          | (false, lista) => (.errorCrear, { st with asignaciones := lista })

/-- PantallasAsignaciones.proceso_devolucion: reject when not found or not
"activo"; reject (with no state change) when the implement lookup fails;
otherwise adjust the implement's stock by +unidades (the returned Bool is
ignored by the source) and set estado to "devuelto". -/
def proceso_devolucion (st : Sistema) (id_asig : String) : ResOperacion × Sistema :=
  match buscar st.asignaciones id_asig with
  | none => (.noEncontradaOInactiva, st)
  | some a =>
    if a.estado ≠ "activo" then (.noEncontradaOInactiva, st)
    else
      match buscar_por_id st.implementos a.codigo_implemento with
      | none => (.errorImplemento, st)
      | some _ =>
        (.exito,
          { st with
            implementos := actualizarImplemento st.implementos a.codigo_implemento
              (fun i => (i.ajustar_stock a.unidades).2),
            asignaciones := actualizarAsignacion st.asignaciones id_asig
              (fun x => { x with estado := "devuelto" }) })

/-- PantallasAsignaciones.proceso_cancelacion: same flow as the return,
recording estado "cancelado". -/
def proceso_cancelacion (st : Sistema) (id_asig : String) : ResOperacion × Sistema :=
  match buscar st.asignaciones id_asig with
  | none => (.noEncontradaOInactiva, st)
  | some a =>
    if a.estado ≠ "activo" then (.noEncontradaOInactiva, st)
    else
      match buscar_por_id st.implementos a.codigo_implemento with
      | none => (.errorImplemento, st)
      | some _ =>
        (.exito,
          { st with
            implementos := actualizarImplemento st.implementos a.codigo_implemento
              (fun i => (i.ajustar_stock a.unidades).2),
            asignaciones := actualizarAsignacion st.asignaciones id_asig
              (fun x => { x with estado := "cancelado" }) })

/-- PantallasAsignaciones.proceso_extension: reject when not found or not
"activo"; reject a malformed new date; then compare the new date against the
stored fecha_retorno (a stored unparseable date makes comparar_fechas raise,
modelled as excepcionFecha) and reject unless strictly later; on success only
fecha_retorno is replaced. -/
def proceso_extension (st : Sistema) (id_asig nueva_fecha : String) : ResExtension × Sistema :=
  match buscar st.asignaciones id_asig with
  | none => (.noEncontradaOInactiva, st)
  | some a =>
    if a.estado ≠ "activo" then (.noEncontradaOInactiva, st)
    else if ¬ validar_fecha nueva_fecha then (.fechaInvalida, st)
    else
      match comparar_fechas nueva_fecha a.fecha_retorno with
      | none => (.excepcionFecha, st)
      | some c =>
        if c ≤ 0 then (.fechaNoPosterior, st)
        else
          (.exito,
            { st with
              asignaciones := actualizarAsignacion st.asignaciones id_asig
                (fun x => { x with fecha_retorno := nueva_fecha }) })

/-- The state-mutating operations of the assignment engine, for claims
quantifying over arbitrary engine activity. -/
inductive Operacion where
  | crearOp (id cm ci : String) (u : Int) (fs fr : String)
  | devolver (id : String)
  | cancelar (id : String)
  | extender (id nf : String)

def ejecutar (st : Sistema) (op : Operacion) : Sistema :=
  match op with
  | .crearOp id cm ci u fs fr => (proceso_creacion st id cm ci u fs fr).2
  | .devolver id => (proceso_devolucion st id).2
  | .cancelar id => (proceso_cancelacion st id).2
  | .extender id nf => (proceso_extension st id nf).2

/-! ## Concrete fixtures used to instantiate the theorems -/

def implW : Implemento := ⟨"T1", "Pala", "jardin", 5, "disponible", 10.0⟩

def miembroW : Miembro := ⟨"M1", "Ana", "Diaz", "555", "Calle 1", "residente"⟩

def asigActivaW : Asignacion := ⟨"A2", "M1", "T1", 2, "2025-01-01", "2025-01-10", "activo"⟩

def asigDevueltaW : Asignacion := ⟨"A3", "M1", "T1", 2, "2025-01-01", "2025-01-10", "devuelto"⟩

def asigMalaW : Asignacion := ⟨"A1", "M1", "I1", 2, "2024-01-01", "31-12-2024", "activo"⟩

def stW : Sistema := ⟨[implW], [miembroW], []⟩

def stW2 : Sistema := ⟨[implW], [miembroW], [asigActivaW]⟩

def stW3 : Sistema := ⟨[implW], [miembroW], [asigActivaW, asigDevueltaW]⟩

def datosNegW : DatosModificacion := ⟨none, none, some (-3), none, none⟩

/-- Non-negativity of every stock in a collection, as a decidable check. -/
def stocksNoNegativos (l : List Implemento) : Bool :=
  l.all (fun i => decide (0 ≤ i.stock))

/-! ## Helper lemmas -/

theorem fechaLt_asymm {a b : Fecha} (h : fechaLt a b = true) : fechaLt b a = false := by
  unfold fechaLt at h ⊢
  split_ifs at h ⊢ <;> first | rfl | omega

theorem compararValoresFecha_pos {f1 f2 : Fecha} :
    0 < compararValoresFecha f1 f2 ↔ fechaLt f2 f1 = true := by
  unfold compararValoresFecha
  split_ifs with h1 h2
  · rw [fechaLt_asymm h1]
    norm_num
  · rw [h2]
    norm_num
  · simp only [Bool.not_eq_true] at h2
    rw [h2]
    norm_num

theorem compararValoresFecha_nonpos {f1 f2 : Fecha} :
    compararValoresFecha f1 f2 ≤ 0 ↔ fechaLt f2 f1 = false := by
  rw [← Bool.not_eq_true, ← compararValoresFecha_pos]
  omega

theorem ajustar_stock_fail {impl : Implemento} {d : Int} (h : impl.stock + d < 0) :
    impl.ajustar_stock d = (false, impl) := by
  simp [Implemento.ajustar_stock, h]

theorem ajustar_stock_ok {impl : Implemento} {d : Int} (h : 0 ≤ impl.stock + d) :
    impl.ajustar_stock d = (true, { impl with stock := impl.stock + d }) := by
  simp [Implemento.ajustar_stock]
  omega

theorem ajustar_stock_snd_nonneg {impl : Implemento} {d : Int} (h : 0 ≤ impl.stock) :
    0 ≤ (impl.ajustar_stock d).2.stock := by
  by_cases hc : impl.stock + d < 0
  · rw [ajustar_stock_fail hc]
    exact h
  · push_neg at hc
    rw [ajustar_stock_ok hc]
    simpa using hc

theorem buscar_por_id_actualizarImplemento {l : List Implemento} {id : String}
    {f : Implemento → Implemento} {x : Implemento}
    (hf : ∀ i, (f i).identificador = i.identificador)
    (hb : buscar_por_id l id = some x) :
    buscar_por_id (actualizarImplemento l id f) id = some (f x) := by
  induction l with
  | nil => simp [buscar_por_id] at hb
  | cons i r ih =>
    by_cases hc : i.identificador = id
    · simp only [buscar_por_id] at hb
      rw [if_pos hc] at hb
      simp only [actualizarImplemento]
      rw [if_pos hc]
      simp only [buscar_por_id]
      rw [if_pos (by rw [hf i]; exact hc)]
      injection hb with hb
      rw [hb]
    · simp only [buscar_por_id] at hb
      rw [if_neg hc] at hb
      simp only [actualizarImplemento]
      rw [if_neg hc]
      simp only [buscar_por_id]
      rw [if_neg hc]
      exact ih hb

theorem mem_actualizarImplemento {l : List Implemento} {id : String}
    {f : Implemento → Implemento} {P : Implemento → Prop}
    (hf : ∀ i, P i → P (f i)) (h : ∀ i ∈ l, P i) :
    ∀ i ∈ actualizarImplemento l id f, P i := by
  induction l with
  | nil => simp [actualizarImplemento]
  | cons i r ih =>
    intro j hj
    unfold actualizarImplemento at hj
    split at hj
    · rcases List.mem_cons.mp hj with h1 | h1
      · subst h1
        exact hf i (h i (List.mem_cons_self i r))
      · exact h j (List.mem_cons.mpr (Or.inr h1))
    · rcases List.mem_cons.mp hj with h1 | h1
      · subst h1
        exact h j (List.mem_cons_self j r)
      · exact ih (fun k hk => h k (List.mem_cons.mpr (Or.inr hk))) j h1

theorem mem_actualizarAsignacion {l : List Asignacion} {id : String}
    {f : Asignacion → Asignacion} {a x : Asignacion}
    (hb : buscar l id = some x) (hm : a ∈ l) (hne : a ≠ x) :
    a ∈ actualizarAsignacion l id f := by
  induction l with
  | nil => simp at hm
  | cons b r ih =>
    by_cases hc : b.identificador = id
    · simp only [buscar, if_pos hc, Option.some.injEq] at hb
      unfold actualizarAsignacion
      rw [if_pos hc]
      rcases List.mem_cons.mp hm with h1 | h1
      · exact absurd (h1.trans hb) hne
      · exact List.mem_cons.mpr (Or.inr h1)
    · simp only [buscar, if_neg hc] at hb
      unfold actualizarAsignacion
      rw [if_neg hc]
      rcases List.mem_cons.mp hm with h1 | h1
      · exact List.mem_cons.mpr (Or.inl h1)
      · exact List.mem_cons.mpr (Or.inr (ih hb h1))

theorem buscar_append_not_found {l : List Asignacion} {id : String} {a : Asignacion}
    (h : existeIdAsignacion l id = false) (ha : a.identificador = id) :
    buscar (l ++ [a]) id = some a := by
  induction l with
  | nil => simp [buscar, ha]
  | cons b r ih =>
    simp only [existeIdAsignacion, List.any_cons, Bool.or_eq_false_iff, beq_eq_false_iff_ne,
      ne_eq] at h
    simp only [List.cons_append, buscar, if_neg h.1]
    exact ih h.2

theorem buscar_actualizarAsignacion {l : List Asignacion} {id : String}
    {f : Asignacion → Asignacion} {x : Asignacion}
    (hf : ∀ a, (f a).identificador = a.identificador)
    (hb : buscar l id = some x) :
    buscar (actualizarAsignacion l id f) id = some (f x) := by
  induction l with
  | nil => simp [buscar] at hb
  | cons b r ih =>
    by_cases hc : b.identificador = id
    · simp only [buscar, if_pos hc, Option.some.injEq] at hb
      unfold actualizarAsignacion
      rw [if_pos hc]
      simp only [buscar]
      rw [if_pos (by rw [hf b]; exact hc), hb]
    · simp only [buscar, if_neg hc] at hb
      unfold actualizarAsignacion
      rw [if_neg hc]
      simp only [buscar, if_neg hc]
      exact ih hb

theorem crear_sufijo (l : List Asignacion) (a : Asignacion) :
    ∃ rest, (crear l a).2 = l ++ rest := by
  unfold crear
  split
  · exact ⟨[], by simp⟩
  · exact ⟨[a], rfl⟩

theorem crear_of_not_exists {l : List Asignacion} {a : Asignacion}
    (h : existeIdAsignacion l a.identificador = false) :
    crear l a = (true, l ++ [a]) := by
  unfold crear
  rw [if_neg (by simp [h])]

theorem proceso_creacion_exito {st : Sistema} {id cm ci : String} {u : Int} {fs fr : String}
    {m : Miembro} {impl : Implemento}
    (hid : existeIdAsignacion st.asignaciones id = false)
    (hm : localizar st.miembros cm = some m)
    (hi : buscar_por_id st.implementos ci = some impl)
    (hu : ¬ u ≤ 0)
    (hd : impl.hay_disponibilidad u = true)
    (hfs : validar_fecha fs = true) (hfr : validar_fecha fr = true) :
    proceso_creacion st id cm ci u fs fr =
      (ResCreacion.exito,
        { st with
          asignaciones := st.asignaciones ++ [⟨id, cm, ci, u, fs, fr, "activo"⟩],
          implementos := actualizarImplemento st.implementos ci
            (fun i => (i.ajustar_stock (-u)).2) }) := by
  have hc := crear_of_not_exists (a := ⟨id, cm, ci, u, fs, fr, "activo"⟩) hid
  simp [proceso_creacion, hid, hm, hi, hd, hfs, hfr, hu, hc]

theorem creacion_extiende_asignaciones (st : Sistema) (id cm ci : String) (u : Int)
    (fs fr : String) :
    ∃ rest, (proceso_creacion st id cm ci u fs fr).2.asignaciones = st.asignaciones ++ rest := by
  unfold proceso_creacion
  split
  · exact ⟨[], by simp⟩
  split
  · exact ⟨[], by simp⟩
  split
  · exact ⟨[], by simp⟩
  split
  · exact ⟨[], by simp⟩
  split
  · exact ⟨[], by simp⟩
  split
  · exact ⟨[], by simp⟩
  dsimp only
  split
  all_goals rename_i lista heq
  · obtain ⟨rest, hr⟩ := crear_sufijo st.asignaciones _
    rw [heq] at hr
    exact ⟨rest, hr⟩
  · obtain ⟨rest, hr⟩ := crear_sufijo st.asignaciones _
    rw [heq] at hr
    exact ⟨rest, hr⟩

/-! ## Claim theorems -/

/-- C2: for every implement with stock >= 0 and every integer delta,
ajustar_stock returns failure and leaves the implement unchanged when
stock + delta < 0, and otherwise succeeds setting stock to stock + delta;
consequently any sequence of ajustar_stock calls starting from non-negative
stock keeps the stock non-negative. -/
theorem ajustar_stock_correcto (impl : Implemento) (delta : Int) (h : 0 ≤ impl.stock) :
    (impl.stock + delta < 0 → impl.ajustar_stock delta = (false, impl)) ∧
    (0 ≤ impl.stock + delta →
      impl.ajustar_stock delta = (true, { impl with stock := impl.stock + delta })) ∧
    ∀ deltas : List Int,
      0 ≤ (deltas.foldl (fun i d => (i.ajustar_stock d).2) impl).stock := by
  refine ⟨fun hneg => ajustar_stock_fail hneg, fun hpos => ajustar_stock_ok hpos, ?_⟩
  intro deltas
  induction deltas generalizing impl with
  | nil => exact h
  | cons d ds ih =>
    simp only [List.foldl_cons]
    exact ih _ (ajustar_stock_snd_nonneg h)

theorem ajustar_stock_correcto_testigo :
    implW.ajustar_stock (-7) = (false, implW) ∧
    implW.ajustar_stock 2 = (true, { implW with stock := 7 }) ∧
    0 ≤ (([2, -9, 4] : List Int).foldl (fun i d => (i.ajustar_stock d).2) implW).stock :=
  ⟨(ajustar_stock_correcto implW (-7) (by decide)).1 (by decide),
   (ajustar_stock_correcto implW 2 (by decide)).2.1 (by decide),
   (ajustar_stock_correcto implW 0 (by decide)).2.2 [2, -9, 4]⟩

/-- C10: for every implement in condition "disponible" and every requested
quantity q with q <= stock — including q = 0 and negative q — the
availability check succeeds: it imposes no positivity requirement on q. -/
theorem disponibilidad_sin_requisito_positividad (impl : Implemento) (q : Int)
    (hc : impl.condicion = "disponible") (hq : q ≤ impl.stock) :
    impl.hay_disponibilidad q = true := by
  simp [Implemento.hay_disponibilidad, hc, hq]

theorem disponibilidad_sin_requisito_positividad_testigo :
    implW.hay_disponibilidad 0 = true ∧ implW.hay_disponibilidad (-2) = true :=
  ⟨disponibilidad_sin_requisito_positividad implW 0 (by decide) (by decide),
   disponibilidad_sin_requisito_positividad implW (-2) (by decide) (by decide)⟩

/-- C5: esta_vencido, evaluated against a reference date, is false for every
record whose estado is not "activo" regardless of its dates, and for records
with parseable dates it returns true exactly when estado is "activo" and the
reference date is strictly after fecha_retorno under calendar-date
comparison; it is a pure function of the record and the date. -/
theorem esta_vencido_caracterizacion (a : Asignacion) (hoy : String) (dh dr : Fecha) :
    (a.estado ≠ "activo" → a.esta_vencido hoy = some false) ∧
    (parsearFecha hoy = some dh → parsearFecha a.fecha_retorno = some dr →
      (a.esta_vencido hoy = some true ↔ a.estado = "activo" ∧ fechaLt dr dh = true)) := by
  constructor
  · intro h
    simp [Asignacion.esta_vencido, h]
  · intro hh hr
    by_cases he : a.estado = "activo"
    · simp [Asignacion.esta_vencido, he, comparar_fechas, hh, hr, compararValoresFecha_pos]
    · simp [Asignacion.esta_vencido, he]

theorem esta_vencido_caracterizacion_testigo :
    asigDevueltaW.esta_vencido "2025-02-01" = some false ∧
    (asigActivaW.esta_vencido "2025-02-01" = some true ↔
      asigActivaW.estado = "activo" ∧ fechaLt ⟨2025, 1, 10⟩ ⟨2025, 2, 1⟩ = true) :=
  ⟨(esta_vencido_caracterizacion asigDevueltaW "2025-02-01" ⟨2025, 2, 1⟩ ⟨2025, 1, 10⟩).1
     (by decide),
   (esta_vencido_caracterizacion asigActivaW "2025-02-01" ⟨2025, 2, 1⟩ ⟨2025, 1, 10⟩).2
     (by decide) (by decide)⟩

/-- C8: once an assignment's estado has left "activo", no engine operation
(creation, return, cancellation, extension) ever changes the record again:
the record, with its estado and both dates, persists untouched in the
collection after any operation. -/
theorem estado_terminal_inmutable (st : Sistema) (op : Operacion) (a : Asignacion)
    (hm : a ∈ st.asignaciones) (hna : a.estado ≠ "activo") :
    a ∈ (ejecutar st op).asignaciones := by
  cases op with
  | crearOp id cm ci u fs fr =>
    obtain ⟨rest, hr⟩ := creacion_extiende_asignaciones st id cm ci u fs fr
    show a ∈ (proceso_creacion st id cm ci u fs fr).2.asignaciones
    rw [hr]
    exact List.mem_append_left _ hm
  | devolver id =>
    show a ∈ (proceso_devolucion st id).2.asignaciones
    unfold proceso_devolucion
    split
    · exact hm
    rename_i x heq
    split
    · exact hm
    rename_i hact
    split
    · exact hm
    refine mem_actualizarAsignacion heq hm ?_
    intro hax
    rw [hax] at hna
    exact hna (not_not.mp (fun h => hact h))
  | cancelar id =>
    show a ∈ (proceso_cancelacion st id).2.asignaciones
    unfold proceso_cancelacion
    split
    · exact hm
    rename_i x heq
    split
    · exact hm
    rename_i hact
    split
    · exact hm
    refine mem_actualizarAsignacion heq hm ?_
    intro hax
    rw [hax] at hna
    exact hna (not_not.mp (fun h => hact h))
  | extender id nf =>
    show a ∈ (proceso_extension st id nf).2.asignaciones
    unfold proceso_extension
    split
    · exact hm
    rename_i x heq
    split
    · exact hm
    rename_i hact
    split
    · exact hm
    split
    · exact hm
    split
    · exact hm
    refine mem_actualizarAsignacion heq hm ?_
    intro hax
    rw [hax] at hna
    exact hna (not_not.mp (fun h => hact h))

theorem estado_terminal_inmutable_testigo :
    asigDevueltaW ∈ (ejecutar stW3 (Operacion.devolver "A2")).asignaciones :=
  estado_terminal_inmutable stW3 (Operacion.devolver "A2") asigDevueltaW
    (by decide) (by decide)

/-- C3: creation checks its preconditions in the fixed order duplicate id,
unknown member, unknown implement, non-positive quantity, insufficient
availability, invalid date, each yielding a distinct outcome with the state
unchanged; when every check passes the outcome is success. In particular a
zero quantity fails with the invalid-quantity outcome, and an unknown member
fails with the unknown-member outcome before any stock or availability check
is consulted. -/
theorem creacion_orden_precondiciones (st : Sistema) (id cm ci : String) (u : Int)
    (fs fr : String) (m : Miembro) (impl : Implemento) :
    (existeIdAsignacion st.asignaciones id = true →
      proceso_creacion st id cm ci u fs fr = (ResCreacion.idDuplicado, st)) ∧
    (existeIdAsignacion st.asignaciones id = false →
      localizar st.miembros cm = none →
      proceso_creacion st id cm ci u fs fr = (ResCreacion.miembroNoEncontrado, st)) ∧
    (existeIdAsignacion st.asignaciones id = false →
      localizar st.miembros cm = some m →
      buscar_por_id st.implementos ci = none →
      proceso_creacion st id cm ci u fs fr = (ResCreacion.implementoNoEncontrado, st)) ∧
    (existeIdAsignacion st.asignaciones id = false →
      localizar st.miembros cm = some m →
      buscar_por_id st.implementos ci = some impl →
      u ≤ 0 →
      proceso_creacion st id cm ci u fs fr = (ResCreacion.cantidadInvalida, st)) ∧
    (existeIdAsignacion st.asignaciones id = false →
      localizar st.miembros cm = some m →
      buscar_por_id st.implementos ci = some impl →
      0 < u →
      impl.hay_disponibilidad u = false →
      proceso_creacion st id cm ci u fs fr = (ResCreacion.stockInsuficiente, st)) ∧
    (existeIdAsignacion st.asignaciones id = false →
      localizar st.miembros cm = some m →
      buscar_por_id st.implementos ci = some impl →
      0 < u →
      impl.hay_disponibilidad u = true →
      (validar_fecha fs && validar_fecha fr) = false →
      proceso_creacion st id cm ci u fs fr = (ResCreacion.fechaInvalida, st)) ∧
    (existeIdAsignacion st.asignaciones id = false →
      localizar st.miembros cm = some m →
      buscar_por_id st.implementos ci = some impl →
      0 < u →
      impl.hay_disponibilidad u = true →
      validar_fecha fs = true →
      validar_fecha fr = true →
      (proceso_creacion st id cm ci u fs fr).1 = ResCreacion.exito) := by
  refine ⟨?_, ?_, ?_, ?_, ?_, ?_, ?_⟩
  · intro h1
    simp [proceso_creacion, h1]
  · intro h1 h2
    simp [proceso_creacion, h1, h2]
  · intro h1 h2 h3
    simp [proceso_creacion, h1, h2, h3]
  · intro h1 h2 h3 h4
    simp [proceso_creacion, h1, h2, h3, h4]
  · intro h1 h2 h3 h4 h5
    simp [proceso_creacion, h1, h2, h3, h5]
    omega
  · intro h1 h2 h3 h4 h5 h6
    have h4' : ¬ u ≤ 0 := by omega
    simp [proceso_creacion, h1, h2, h3, h4', h5, h6]
  · intro h1 h2 h3 h4 h5 h6 h7
    rw [proceso_creacion_exito h1 h2 h3 (by omega) h5 h6 h7]

theorem creacion_orden_precondiciones_testigo :
    proceso_creacion stW "A1" "M1" "T1" 0 "2025-01-01" "2025-01-10"
      = (ResCreacion.cantidadInvalida, stW) ∧
    proceso_creacion stW "A1" "MX" "T1" 3 "2025-01-01" "2025-01-10"
      = (ResCreacion.miembroNoEncontrado, stW) ∧
    (proceso_creacion stW "A1" "M1" "T1" 3 "2025-01-01" "2025-01-10").1
      = ResCreacion.exito :=
  ⟨(creacion_orden_precondiciones stW "A1" "M1" "T1" 0 "2025-01-01" "2025-01-10"
      miembroW implW).2.2.2.1 (by decide) (by decide) rfl (by decide),
   (creacion_orden_precondiciones stW "A1" "MX" "T1" 3 "2025-01-01" "2025-01-10"
      miembroW implW).2.1 (by decide) rfl,
   (creacion_orden_precondiciones stW "A1" "M1" "T1" 3 "2025-01-01" "2025-01-10"
      miembroW implW).2.2.2.2.2.2 (by decide) rfl rfl (by decide) (by decide)
      (by decide) (by decide)⟩

/-- C6: extension fails with no state change when the assignment is missing
or not "activo", when the new date is malformed, and when the new date is not
strictly later than the stored fecha_retorno (equal dates rejected); when the
new date is strictly later it succeeds and replaces only fecha_retorno,
leaving estado and every other field unchanged. -/
theorem extension_caracterizacion (st : Sistema) (id nf : String) (a : Asignacion)
    (dn dr : Fecha) :
    (buscar st.asignaciones id = none →
      proceso_extension st id nf = (ResExtension.noEncontradaOInactiva, st)) ∧
    (buscar st.asignaciones id = some a → a.estado ≠ "activo" →
      proceso_extension st id nf = (ResExtension.noEncontradaOInactiva, st)) ∧
    (buscar st.asignaciones id = some a → a.estado = "activo" →
      validar_fecha nf = false →
      proceso_extension st id nf = (ResExtension.fechaInvalida, st)) ∧
    (buscar st.asignaciones id = some a → a.estado = "activo" →
      parsearFecha nf = some dn → parsearFecha a.fecha_retorno = some dr →
      fechaLt dr dn = false →
      proceso_extension st id nf = (ResExtension.fechaNoPosterior, st)) ∧
    (buscar st.asignaciones id = some a → a.estado = "activo" →
      parsearFecha nf = some dn → parsearFecha a.fecha_retorno = some dr →
      fechaLt dr dn = true →
      proceso_extension st id nf =
        (ResExtension.exito,
          { st with
              asignaciones := actualizarAsignacion st.asignaciones id
                (fun x => { x with fecha_retorno := nf }) }) ∧
      buscar (proceso_extension st id nf).2.asignaciones id
        = some { a with fecha_retorno := nf }) := by
  refine ⟨?_, ?_, ?_, ?_, ?_⟩
  · intro h1
    simp [proceso_extension, h1]
  · intro h1 h2
    simp [proceso_extension, h1, h2]
  · intro h1 h2 h3
    simp [proceso_extension, h1, h2, h3, validar_fecha] at h3 ⊢
    simp [proceso_extension, h1, h2, h3]
  · intro h1 h2 hdn hdr hlt
    have hv : validar_fecha nf = true := by simp [validar_fecha, hdn]
    have hc : comparar_fechas nf a.fecha_retorno = some (compararValoresFecha dn dr) := by
      simp [comparar_fechas, hdn, hdr]
    have hle : compararValoresFecha dn dr ≤ 0 := compararValoresFecha_nonpos.mpr hlt
    simp [proceso_extension, h1, h2, hv, hc, hle]
  · intro h1 h2 hdn hdr hlt
    have hv : validar_fecha nf = true := by simp [validar_fecha, hdn]
    have hc : comparar_fechas nf a.fecha_retorno = some (compararValoresFecha dn dr) := by
      simp [comparar_fechas, hdn, hdr]
    have hpos : 0 < compararValoresFecha dn dr := compararValoresFecha_pos.mpr hlt
    have hres : proceso_extension st id nf =
        (ResExtension.exito,
          { st with
              asignaciones := actualizarAsignacion st.asignaciones id
                (fun x => { x with fecha_retorno := nf }) }) := by
      have hnle : ¬ compararValoresFecha dn dr ≤ 0 := by omega
      simp [proceso_extension, h1, h2, hv, hc, hnle]
    refine ⟨hres, ?_⟩
    rw [hres]
    exact buscar_actualizarAsignacion (fun x => rfl) h1

theorem extension_caracterizacion_testigo :
    proceso_extension stW2 "A2" "2025-01-10" = (ResExtension.fechaNoPosterior, stW2) ∧
    buscar (proceso_extension stW2 "A2" "2025-02-01").2.asignaciones "A2"
      = some { asigActivaW with fecha_retorno := "2025-02-01" } :=
  ⟨(extension_caracterizacion stW2 "A2" "2025-01-10" asigActivaW ⟨2025, 1, 10⟩
      ⟨2025, 1, 10⟩).2.2.2.1 rfl rfl (by decide) (by decide) (by decide),
   ((extension_caracterizacion stW2 "A2" "2025-02-01" asigActivaW ⟨2025, 2, 1⟩
      ⟨2025, 1, 10⟩).2.2.2.2 rfl rfl (by decide) (by decide) (by decide)).2⟩

theorem ajustar_stock_identificador (impl : Implemento) (d : Int) :
    (impl.ajustar_stock d).2.identificador = impl.identificador := by
  unfold Implemento.ajustar_stock
  dsimp only
  split <;> rfl

/-- C7: returning (and identically cancelling) an active assignment whose
implement id matches no stored implement fails and is atomic on error — the
whole state, in particular the assignment's estado, is unchanged and no stock
is adjusted; when the implement exists (with enough stock for the adjustment
to commit), the operation adds the assignment's unidades to that implement's
stock and sets estado to "devuelto" (respectively "cancelado"). -/
theorem devolucion_cancelacion_implemento_desconocido (st : Sistema) (id : String)
    (a : Asignacion) (impl : Implemento)
    (ha : buscar st.asignaciones id = some a) (hact : a.estado = "activo") :
    (buscar_por_id st.implementos a.codigo_implemento = none →
      proceso_devolucion st id = (ResOperacion.errorImplemento, st) ∧
      proceso_cancelacion st id = (ResOperacion.errorImplemento, st)) ∧
    (buscar_por_id st.implementos a.codigo_implemento = some impl →
      0 ≤ impl.stock + a.unidades →
      (proceso_devolucion st id).1 = ResOperacion.exito ∧
      buscar_por_id (proceso_devolucion st id).2.implementos a.codigo_implemento
        = some { impl with stock := impl.stock + a.unidades } ∧
      buscar (proceso_devolucion st id).2.asignaciones id
        = some { a with estado := "devuelto" } ∧
      (proceso_cancelacion st id).1 = ResOperacion.exito ∧
      buscar_por_id (proceso_cancelacion st id).2.implementos a.codigo_implemento
        = some { impl with stock := impl.stock + a.unidades } ∧
      buscar (proceso_cancelacion st id).2.asignaciones id
        = some { a with estado := "cancelado" }) := by
  constructor
  · intro hn
    constructor
    · simp [proceso_devolucion, ha, hact, hn]
    · simp [proceso_cancelacion, ha, hact, hn]
  · intro hi hnn
    have hdev : proceso_devolucion st id =
        (ResOperacion.exito,
          { st with
              implementos := actualizarImplemento st.implementos a.codigo_implemento
                (fun i => (i.ajustar_stock a.unidades).2),
              asignaciones := actualizarAsignacion st.asignaciones id
                (fun x => { x with estado := "devuelto" }) }) := by
      simp [proceso_devolucion, ha, hact, hi]
    have hcan : proceso_cancelacion st id =
        (ResOperacion.exito,
          { st with
              implementos := actualizarImplemento st.implementos a.codigo_implemento
                (fun i => (i.ajustar_stock a.unidades).2),
              asignaciones := actualizarAsignacion st.asignaciones id
                (fun x => { x with estado := "cancelado" }) }) := by
      simp [proceso_cancelacion, ha, hact, hi]
    have himpl : buscar_por_id
        (actualizarImplemento st.implementos a.codigo_implemento
          (fun i => (i.ajustar_stock a.unidades).2)) a.codigo_implemento
        = some { impl with stock := impl.stock + a.unidades } := by
      rw [buscar_por_id_actualizarImplemento (fun i => ajustar_stock_identificador i a.unidades) hi]
      rw [ajustar_stock_ok hnn]
    refine ⟨by rw [hdev], ?_, ?_, by rw [hcan], ?_, ?_⟩
    · rw [hdev]
      exact himpl
    · rw [hdev]
      exact buscar_actualizarAsignacion (fun x => rfl) ha
    · rw [hcan]
      exact himpl
    · rw [hcan]
      exact buscar_actualizarAsignacion (fun x => rfl) ha

theorem devolucion_cancelacion_implemento_desconocido_testigo :
    (proceso_devolucion stW2 "A2").1 = ResOperacion.exito ∧
    buscar_por_id (proceso_devolucion stW2 "A2").2.implementos "T1"
      = some { implW with stock := implW.stock + asigActivaW.unidades } ∧
    buscar (proceso_devolucion stW2 "A2").2.asignaciones "A2"
      = some { asigActivaW with estado := "devuelto" } ∧
    (proceso_cancelacion stW2 "A2").1 = ResOperacion.exito ∧
    buscar_por_id (proceso_cancelacion stW2 "A2").2.implementos "T1"
      = some { implW with stock := implW.stock + asigActivaW.unidades } ∧
    buscar (proceso_cancelacion stW2 "A2").2.asignaciones "A2"
      = some { asigActivaW with estado := "cancelado" } :=
  (devolucion_cancelacion_implemento_desconocido stW2 "A2" asigActivaW implW
    rfl rfl).2 rfl (by decide)

/-- C4: after a successful creation of quantity u against an implement with
enough stock, returning that assignment brings the implement's stock back to
its value before the creation, and cancelling instead of returning leaves the
implement collection in exactly the same state. -/
theorem crear_devolver_cancelar_restaura_stock (st : Sistema) (id cm ci : String) (u : Int)
    (fs fr : String) (m : Miembro) (impl : Implemento)
    (hid : existeIdAsignacion st.asignaciones id = false)
    (hm : localizar st.miembros cm = some m)
    (hi : buscar_por_id st.implementos ci = some impl)
    (hu : 0 < u) (hd : impl.hay_disponibilidad u = true)
    (hfs : validar_fecha fs = true) (hfr : validar_fecha fr = true) :
    (buscar_por_id
        (proceso_devolucion (proceso_creacion st id cm ci u fs fr).2 id).2.implementos
        ci).map Implemento.stock = some impl.stock ∧
    (proceso_cancelacion (proceso_creacion st id cm ci u fs fr).2 id).2.implementos
      = (proceso_devolucion (proceso_creacion st id cm ci u fs fr).2 id).2.implementos := by
  have hstock : u ≤ impl.stock := by
    simp [Implemento.hay_disponibilidad] at hd
    exact hd.1
  have hcrea := proceso_creacion_exito hid hm hi (by omega) hd hfs hfr
  set nueva : Asignacion := ⟨id, cm, ci, u, fs, fr, "activo"⟩ with hnueva
  have hb1 : buscar (proceso_creacion st id cm ci u fs fr).2.asignaciones id = some nueva := by
    rw [hcrea]
    exact buscar_append_not_found hid rfl
  have hf1 : (impl.ajustar_stock (-u)).2 = { impl with stock := impl.stock + -u } := by
    rw [ajustar_stock_ok (by omega)]
  have hi1 : buscar_por_id (proceso_creacion st id cm ci u fs fr).2.implementos ci
      = some { impl with stock := impl.stock + -u } := by
    rw [hcrea]
    show buscar_por_id (actualizarImplemento st.implementos ci _) ci = _
    rw [buscar_por_id_actualizarImplemento (fun i => ajustar_stock_identificador i (-u)) hi]
    rw [hf1]
  have hdev : (proceso_devolucion (proceso_creacion st id cm ci u fs fr).2 id).2.implementos
      = actualizarImplemento (proceso_creacion st id cm ci u fs fr).2.implementos ci
          (fun i => (i.ajustar_stock u).2) := by
    simp [proceso_devolucion, hb1, hnueva, hi1]
  have hcan : (proceso_cancelacion (proceso_creacion st id cm ci u fs fr).2 id).2.implementos
      = actualizarImplemento (proceso_creacion st id cm ci u fs fr).2.implementos ci
          (fun i => (i.ajustar_stock u).2) := by
    simp [proceso_cancelacion, hb1, hnueva, hi1]
  constructor
  · rw [hdev]
    rw [buscar_por_id_actualizarImplemento (fun i => ajustar_stock_identificador i u) hi1]
    rw [ajustar_stock_ok (by simp; omega)]
    simp
  · rw [hdev, hcan]

theorem crear_devolver_cancelar_restaura_stock_testigo :
    (buscar_por_id
        (proceso_devolucion
          (proceso_creacion stW "A1" "M1" "T1" 3 "2025-01-01" "2025-01-10").2 "A1").2.implementos
        "T1").map Implemento.stock = some implW.stock ∧
    (proceso_cancelacion
        (proceso_creacion stW "A1" "M1" "T1" 3 "2025-01-01" "2025-01-10").2 "A1").2.implementos
      = (proceso_devolucion
          (proceso_creacion stW "A1" "M1" "T1" 3 "2025-01-01" "2025-01-10").2 "A1").2.implementos :=
  crear_devolver_cancelar_restaura_stock stW "A1" "M1" "T1" 3 "2025-01-01" "2025-01-10"
    miembroW implW (by decide) rfl rfl (by decide) (by decide) (by decide) (by decide)

theorem creacion_implementos_casos (st : Sistema) (id cm ci : String) (u : Int)
    (fs fr : String) :
    (proceso_creacion st id cm ci u fs fr).2.implementos = st.implementos ∨
    (proceso_creacion st id cm ci u fs fr).2.implementos
      = actualizarImplemento st.implementos ci (fun i => (i.ajustar_stock (-u)).2) := by
  unfold proceso_creacion
  split
  · exact Or.inl rfl
  split
  · exact Or.inl rfl
  split
  · exact Or.inl rfl
  split
  · exact Or.inl rfl
  split
  · exact Or.inl rfl
  split
  · exact Or.inl rfl
  dsimp only
  split
  · exact Or.inr rfl
  · exact Or.inl rfl

theorem ejecutar_implementos_casos (st : Sistema) (op : Operacion) :
    (ejecutar st op).implementos = st.implementos ∨
    ∃ c d, (ejecutar st op).implementos
      = actualizarImplemento st.implementos c (fun i => (i.ajustar_stock d).2) := by
  cases op with
  | crearOp id cm ci u fs fr =>
    rcases creacion_implementos_casos st id cm ci u fs fr with h | h
    · exact Or.inl h
    · exact Or.inr ⟨ci, -u, h⟩
  | devolver id =>
    simp only [ejecutar]
    unfold proceso_devolucion
    split
    · exact Or.inl rfl
    rename_i x heq
    split
    · exact Or.inl rfl
    split
    · exact Or.inl rfl
    · exact Or.inr ⟨x.codigo_implemento, x.unidades, rfl⟩
  | cancelar id =>
    simp only [ejecutar]
    unfold proceso_cancelacion
    split
    · exact Or.inl rfl
    rename_i x heq
    split
    · exact Or.inl rfl
    split
    · exact Or.inl rfl
    · exact Or.inr ⟨x.codigo_implemento, x.unidades, rfl⟩
  | extender id nf =>
    simp only [ejecutar]
    unfold proceso_extension
    split
    · exact Or.inl rfl
    split
    · exact Or.inl rfl
    split
    · exact Or.inl rfl
    split
    · exact Or.inl rfl
    split
    · exact Or.inl rfl
    · exact Or.inl rfl

/-- C1 counterexample: a modification through the implement-edit path (which
the interface accepts for any integer answer) stores a negative stock
directly, bypassing ajustar_stock — the stock invariant does not hold over
all reachable states, and the adjust-by-delta operation is not the only
stock mutation. -/
theorem modificacion_almacena_stock_negativo :
    (proceso_modificacion [implW] "T1" "" "" (some (-3)) "" none).1 = true ∧
    (buscar_por_id (proceso_modificacion [implW] "T1" "" "" (some (-3)) "" none).2 "T1").map
      Implemento.stock = some (-3) ∧
    (-3 : Int) < 0 := by
  refine ⟨rfl, rfl, by decide⟩

/-- C1 (amended): the loan-activity operations of the assignment engine —
creation, return, cancellation, extension — mutate stock only through
ajustar_stock and therefore preserve non-negativity of every implement's
stock; the direct-edit path modificar_existente, however, assigns stock
without any check, so edits can drive a stock negative (see the
counterexample). -/
theorem operaciones_prestamo_preservan_stock (st : Sistema) (op : Operacion)
    (h : stocksNoNegativos st.implementos = true) :
    stocksNoNegativos (ejecutar st op).implementos = true := by
  simp only [stocksNoNegativos, List.all_eq_true, decide_eq_true_eq] at h ⊢
  rcases ejecutar_implementos_casos st op with hcase | ⟨c, d, hcase⟩
  · rw [hcase]
    exact h
  · rw [hcase]
    exact mem_actualizarImplemento (fun i hi => ajustar_stock_snd_nonneg hi) h

theorem operaciones_prestamo_preservan_stock_testigo :
    stocksNoNegativos (ejecutar stW2 (Operacion.devolver "A2")).implementos = true :=
  operaciones_prestamo_preservan_stock stW2 (Operacion.devolver "A2") (by decide)

theorem creacion_exito_fechas_validas {st : Sistema} {id cm ci : String} {u : Int}
    {fs fr : String} (hexito : (proceso_creacion st id cm ci u fs fr).1 = ResCreacion.exito) :
    validar_fecha fs = true ∧ validar_fecha fr = true := by
  unfold proceso_creacion at hexito
  split at hexito
  · exact absurd hexito (by simp)
  split at hexito
  · exact absurd hexito (by simp)
  split at hexito
  · exact absurd hexito (by simp)
  split at hexito
  · exact absurd hexito (by simp)
  split at hexito
  · exact absurd hexito (by simp)
  split at hexito
  · exact absurd hexito (by simp)
  rename_i hfechas
  rw [not_not, Bool.and_eq_true] at hfechas
  exact hfechas

theorem extension_exito_fecha_valida {st : Sistema} {id nf : String}
    (hexito : (proceso_extension st id nf).1 = ResExtension.exito) :
    validar_fecha nf = true := by
  unfold proceso_extension at hexito
  split at hexito
  · exact absurd hexito (by simp)
  split at hexito
  · exact absurd hexito (by simp)
  split at hexito
  · rename_i hval
    exact absurd hexito (by simp)
  · rename_i hval
    exact not_not.mp (fun h => hval (by simp [h]))

theorem obtener_vencidas_isSome {l : List Asignacion} {hoy : String}
    (hhoy : validar_fecha hoy = true)
    (hall : ∀ a ∈ l, a.estado = "activo" → validar_fecha a.fecha_retorno = true) :
    (obtener_vencidas l hoy).isSome = true := by
  induction l with
  | nil => simp [obtener_vencidas]
  | cons a r ih =>
    have hr : (obtener_vencidas r hoy).isSome = true :=
      ih (fun x hx => hall x (List.mem_cons.mpr (Or.inr hx)))
    have ha : (a.esta_vencido hoy).isSome = true := by
      by_cases he : a.estado = "activo"
      · have hret := hall a (List.mem_cons_self a r) he
        simp only [validar_fecha, Option.isSome_iff_exists] at hhoy hret
        obtain ⟨dh, hdh⟩ := hhoy
        obtain ⟨dr, hdr⟩ := hret
        simp [Asignacion.esta_vencido, he, comparar_fechas, hdh, hdr]
      · simp [Asignacion.esta_vencido, he]
    simp only [Option.isSome_iff_exists] at ha hr
    obtain ⟨b, hb⟩ := ha
    obtain ⟨rest, hrest⟩ := hr
    simp [obtener_vencidas, hb, hrest]

/-- C9 counterexample: the load path accepts a seven-field line whose due
date is not a calendar date, storing the record — so an invalid date string
does reach an entity and is kept — and evaluating esta_vencido (or the
overdue listing) on that active record raises (modelled as none). -/
theorem carga_almacena_fecha_invalida :
    cargar_linea "A1,M1,I1,2,2024-01-01,31-12-2024,activo" = some asigMalaW ∧
    validar_fecha asigMalaW.fecha_retorno = false ∧
    asigMalaW.estado = "activo" ∧
    asigMalaW.esta_vencido "2025-01-01" = none ∧
    obtener_vencidas [asigMalaW] "2025-01-01" = none := by
  refine ⟨by decide, by decide, rfl, by decide, by decide⟩

/-- C9 (amended): the interactive paths do validate dates — a successful
creation implies both supplied dates are valid, and a successful extension
implies the new due date is valid — and the overdue listing never raises over
records whose active due dates (and the reference date) parse; however the
store-loading path performs no date validation, so loaded records can hold
invalid date strings and make the overdue listing raise (see the
counterexample). -/
theorem fechas_validadas_en_operaciones_interactivas (st : Sistema) (id cm ci : String)
    (u : Int) (fs fr nf hoy : String) (l : List Asignacion) :
    ((proceso_creacion st id cm ci u fs fr).1 = ResCreacion.exito →
      validar_fecha fs = true ∧ validar_fecha fr = true) ∧
    ((proceso_extension st id nf).1 = ResExtension.exito → validar_fecha nf = true) ∧
    (validar_fecha hoy = true →
      (∀ a ∈ l, a.estado = "activo" → validar_fecha a.fecha_retorno = true) →
      (obtener_vencidas l hoy).isSome = true) :=
  ⟨fun h => creacion_exito_fechas_validas h,
   fun h => extension_exito_fecha_valida h,
   fun h1 h2 => obtener_vencidas_isSome h1 h2⟩

theorem fechas_validadas_en_operaciones_interactivas_testigo :
    (validar_fecha "2025-01-01" = true ∧ validar_fecha "2025-01-10" = true) ∧
    validar_fecha "2025-02-01" = true ∧
    (obtener_vencidas [asigActivaW] "2025-02-01").isSome = true :=
  ⟨(fechas_validadas_en_operaciones_interactivas stW "A1" "M1" "T1" 3 "2025-01-01"
      "2025-01-10" "x" "x" []).1 (by decide),
   (fechas_validadas_en_operaciones_interactivas stW2 "A2" "" "" 0 "" "" "2025-02-01"
      "x" []).2.1 (by decide),
   (fechas_validadas_en_operaciones_interactivas stW2 "A2" "" "" 0 "" "" "x"
      "2025-02-01" [asigActivaW]).2.2 (by decide) (by decide)⟩

end Sistema_Comunitario
